import Mathlib

/-!
# Dummy audio backend: ports, registry lookup and MIDI event ordering

A shallow embedding of `libs/backends/dummy/dummy_audiobackend.h`.

* C++ objects that are reached through pointers (`DummyPort*`, `PortHandle`)
  live in a `Heap`: a map from addresses to objects. An address that holds no
  object (a dangling or null pointer) dereferences to `none`; a function that
  dereferences such a pointer has no defined result and returns `none`.
* `std::vector<T>` is `List T`; `std::find` returns the position of the first
  match, the length of the vector standing for `end ()`.
* `uint32_t`, `size_t` and `pframes_t` values are natural numbers. None of the
  embedded functions does arithmetic on them, so no wrap-around can occur.
-/

namespace ARDOUR

/-! ## Types declared outside the header -/

/-- Modelled from the spec: `pframes_t` comes from `ardour/types.h`, which is
not part of the sources. It is the unsigned sample count used for timestamps
("a timestamp expressed in samples-since-cycle-start"). -/
abbrev pframes_t := Nat

/-- Modelled from the spec: `PortFlags` comes from `ardour/types.h`. It is a
bitset ("flags (bitset: Input, Output, Physical, Terminal)"). -/
abbrev PortFlags := Nat

/-- The values of the `PortFlags` enumerators used by the header. They are
declared in `ardour/types.h`; the functions below take them as a parameter. -/
structure PortFlagBits where
  IsInput : PortFlags
  IsOutput : PortFlags
  IsPhysical : PortFlags
  IsTerminal : PortFlags
deriving DecidableEq, Repr

/-- Modelled from the spec: `LatencyRange` comes from `ardour/types.h`. It is
"an ordered [min,max] pair in samples". -/
structure LatencyRange where
  min : Nat
  max : Nat
deriving DecidableEq, Repr

/-- Modelled from the spec: `DataType` comes from `ardour/types.h`; the header
uses its two values `DataType::AUDIO` and `DataType::MIDI`. -/
inductive DataType where
  | AUDIO
  | MIDI
deriving DecidableEq, Repr

/-- Modelled from the spec: the failure taxonomy of the backend's control
operations (section 7 of the specification). The header only shows `int`
results. -/
inductive BackendError where
  | DuplicateName
  | InvalidHandle
  | InvalidConnection
  | BufferFull
  | NotPermittedWhileRunning
  | StartupFailed
  | DeviceUnavailable
deriving DecidableEq, Repr

/-! ## DummyMidiEvent -/

/-- The class `DummyMidiEvent`: `_data` is the owned payload, a byte array. -/
structure DummyMidiEvent where
  _size : Nat
  _timestamp : pframes_t
  _data : List Nat
deriving DecidableEq, Repr

namespace DummyMidiEvent

/-- `size_t size () const` -/
def size (self : DummyMidiEvent) : Nat := self._size

/-- `pframes_t timestamp () const` -/
def timestamp (self : DummyMidiEvent) : pframes_t := self._timestamp

/-- `const unsigned char* const_data () const` -/
def const_data (self : DummyMidiEvent) : List Nat := self._data

/-- `bool operator< (const DummyMidiEvent &other) const`:
`return timestamp () < other.timestamp ();` -/
def operator_lt (self other : DummyMidiEvent) : Bool :=
  decide (self.timestamp < other.timestamp)

end DummyMidiEvent

/-- `typedef std::vector<boost::shared_ptr<DummyMidiEvent> > DummyMidiBuffer;` -/
abbrev DummyMidiBuffer := List DummyMidiEvent

/-! ## DummyPort -/

/-- An address of a `DummyPort` object (`DummyPort*`, and `PortHandle`, which
is `void*`). -/
abbrev PortHandle := Nat

/-- The null pointer. -/
def NULL : PortHandle := 0

/-- The class `DummyPort`. `type` is the result of the pure virtual
`type ()`, fixed by the concrete class (`DummyAudioPort` or `DummyMidiPort`). -/
structure DummyPort where
  _name : String
  _flags : PortFlags
  _capture_latency_range : LatencyRange
  _playback_latency_range : LatencyRange
  _connections : List PortHandle
  type : DataType
deriving DecidableEq, Repr

namespace DummyPort

/-- `const std::string& name () const` -/
def name (self : DummyPort) : String := self._name

/-- `PortFlags flags () const` -/
def flags (self : DummyPort) : PortFlags := self._flags

/-- `int set_name (const std::string &name)`: assigns `_name` and returns 0.
The result is the returned integer and the port after the call. -/
def set_name (self : DummyPort) (name : String) : Int × DummyPort :=
  (0, { self with _name := name })

/-- `bool is_input () const`: `return flags () & IsInput;` -/
def is_input (bits : PortFlagBits) (self : DummyPort) : Bool :=
  (self.flags &&& bits.IsInput) != 0

/-- `bool is_output () const`: `return flags () & IsOutput;` -/
def is_output (bits : PortFlagBits) (self : DummyPort) : Bool :=
  (self.flags &&& bits.IsOutput) != 0

/-- `bool is_physical () const`: `return flags () & IsPhysical;` -/
def is_physical (bits : PortFlagBits) (self : DummyPort) : Bool :=
  (self.flags &&& bits.IsPhysical) != 0

/-- `bool is_terminal () const`: `return flags () & IsTerminal;` -/
def is_terminal (bits : PortFlagBits) (self : DummyPort) : Bool :=
  (self.flags &&& bits.IsTerminal) != 0

/-- `const std::vector<DummyPort *>& get_connections () const` -/
def get_connections (self : DummyPort) : List PortHandle := self._connections

/-- `const LatencyRange& latency_range (bool for_playback) const` -/
def latency_range (self : DummyPort) (for_playback : Bool) : LatencyRange :=
  if for_playback then self._playback_latency_range else self._capture_latency_range

/-- `void set_latency_range (const LatencyRange &latency_range, bool for_playback)` -/
def set_latency_range (self : DummyPort) (latency_range : LatencyRange)
    (for_playback : Bool) : DummyPort :=
  if for_playback then
    { self with _playback_latency_range := latency_range }
  else
    { self with _capture_latency_range := latency_range }

end DummyPort

/-- The mutating member functions of `DummyPort` whose bodies are in the
header: `set_name` and `set_latency_range`. -/
inductive PortOp where
  | set_name (name : String)
  | set_latency_range (latency_range : LatencyRange) (for_playback : Bool)
deriving DecidableEq, Repr

/-- One call of a mutating member function on a port. -/
def PortOp.run (p : DummyPort) : PortOp → DummyPort
  | .set_name name => (p.set_name name).2
  | .set_latency_range r for_playback => p.set_latency_range r for_playback

/-- A sequence of calls, first to last. -/
def PortOp.runAll (p : DummyPort) (ops : List PortOp) : DummyPort :=
  ops.foldl PortOp.run p

/-! ## Memory -/

/-- The objects of class `DummyPort` that exist, by address. -/
abbrev Heap := PortHandle → Option DummyPort

/-- Reading through a `DummyPort*`: the object at the address, or `none` when
the pointer is null or no object lives there. -/
def deref (heap : Heap) (p : PortHandle) : Option DummyPort :=
  if p = NULL then none else heap p

/-- Writing through a `DummyPort*`. -/
def store (heap : Heap) (p : PortHandle) (v : DummyPort) : Heap :=
  Function.update heap p (some v)

/-! ## DummyAudioBackend: the port registry -/

/-- The class `DummyAudioBackend`, restricted to the port engine's member
`std::vector<DummyPort *> _ports`. -/
structure DummyAudioBackend where
  _ports : List PortHandle
deriving DecidableEq, Repr

/-- `std::find (first, last, value)` on a vector of pointers: the position of
the first element equal to `value`; the length of the vector is `end ()`. -/
def std_find : List PortHandle → PortHandle → Nat
  | [], _ => 0
  | x :: xs, value => if x = value then 0 else std_find xs value + 1

namespace DummyAudioBackend

/-- `bool valid_port (PortHandle port) const`:
`return std::find (_ports.begin (), _ports.end (), (DummyPort*)port) != _ports.end ();` -/
def valid_port (self : DummyAudioBackend) (port : PortHandle) : Bool :=
  std_find self._ports port != self._ports.length

/-- The loop of `find_port`, from iterator position `it` (the remaining
elements) to `_ports.end ()`. `none`: the loop dereferenced a pointer to no
object. `some NULL`: the loop reached the end. -/
def find_port_loop (heap : Heap) (port_name : String) : List PortHandle → Option PortHandle
  | [] => some NULL
  | it :: rest =>
    match deref heap it with
    | none => none
    | some p => if p.name = port_name then some it else find_port_loop heap port_name rest

/-- `DummyPort * find_port (const std::string& port_name) const` -/
def find_port (heap : Heap) (self : DummyAudioBackend) (port_name : String) :
    Option PortHandle :=
  find_port_loop heap port_name self._ports

/-- Every pointer in `_ports` points to a `DummyPort` object. -/
def WellFormed (heap : Heap) (self : DummyAudioBackend) : Prop :=
  ∀ h ∈ self._ports, (deref heap h).isSome = true

/-- The ports of the registry have pairwise distinct names. -/
def DistinctNames (heap : Heap) (self : DummyAudioBackend) : Prop :=
  self._ports.Pairwise (fun a b => (deref heap a).map DummyPort.name
    ≠ (deref heap b).map DummyPort.name)

/-- Some registered port is named `n`. -/
def HasPortNamed (heap : Heap) (self : DummyAudioBackend) (n : String) : Prop :=
  ∃ h ∈ self._ports, ∃ p, deref heap h = some p ∧ p.name = n

/-- Modelled from the spec: `int set_port_name (PortHandle, const std::string&)`
is only declared in the header; its body is not part of the sources. The spec:
"`set_port_name` (fails with `DuplicateName` if the new name collides with an
existing one)", and "Handle validity is defined purely by Registry membership",
a handle that is not valid being refused with `InvalidHandle`. The name lookup
is `find_port` and the assignment is `DummyPort::set_name`, both from the
header. `none`: `find_port` dereferenced a pointer to no object. -/
def set_port_name (heap : Heap) (self : DummyAudioBackend) (port : PortHandle)
    (name : String) : Option (Except BackendError Heap) :=
  if self.valid_port port = false then
    some (.error .InvalidHandle)
  else
    match self.find_port heap name with
    | none => none
    | some existing =>
      if existing ≠ NULL then
        some (.error .DuplicateName)
      else
        match deref heap port with
        | none => none
        | some p => some (.ok (store heap port (p.set_name name).2))

end DummyAudioBackend

/-! ## The connection graph -/

namespace DummyPort

/-- `bool is_connected () const`: `return _connections.size () != 0;` -/
def is_connected (self : DummyPort) : Bool := self._connections.length != 0

/-- Modelled from the spec: `bool is_connected (const DummyPort *port) const`
is only declared in the header. The spec: a port holds "a set of
back-references to connected Ports"; `port` is connected to this port when it
is in that set. -/
def is_connected_to (self : DummyPort) (port : PortHandle) : Bool :=
  decide (port ∈ self._connections)

/-- Modelled from the spec: the bodies of the private `_connect` and
`_disconnect` are not part of the sources. This is one half of "inserts B into
A's connection set and A into B's": `port` is put into the connection set of
the object at `self`, which holds an element at most once ("must not duplicate
the edge"). -/
def insert_connection (heap : Heap) (self port : PortHandle) : Heap :=
  match deref heap self with
  | none => heap
  | some a =>
    if port ∈ a._connections then heap
    else store heap self { a with _connections := a._connections ++ [port] }

/-- Modelled from the spec: the bodies of the private `_connect` and
`_disconnect` are not part of the sources. This is one half of "removes the
mirrored edge": `port` is taken out of the connection set of the object at
`self`. -/
def remove_connection (heap : Heap) (self port : PortHandle) : Heap :=
  match deref heap self with
  | none => heap
  | some a =>
    store heap self { a with _connections := a._connections.filter (fun c => c != port) }

/-- Modelled from the spec: `int connect (DummyPort *port)` is only declared in
the header. The spec: "fails with `InvalidConnection` if A and B have identical
type-direction incompatibility (e.g., both inputs, or mismatched data type), or
if already connected [...]. On success, inserts B into A's connection set and A
into B's, symmetrically." A pointer to no object is refused with
`InvalidHandle`. -/
def connect (bits : PortFlagBits) (heap : Heap) (self port : PortHandle) :
    Except BackendError Heap :=
  match deref heap self, deref heap port with
  | some a, some b =>
    if a.type ≠ b.type then .error .InvalidConnection
    else if a.is_input bits = true ∧ b.is_input bits = true then .error .InvalidConnection
    else if a.is_output bits = true ∧ b.is_output bits = true then .error .InvalidConnection
    else if a.is_connected_to port = true then .error .InvalidConnection
    else .ok (insert_connection (insert_connection heap self port) port self)
  | _, _ => .error .InvalidHandle

/-- Modelled from the spec: `int disconnect (DummyPort *port)` is only declared
in the header. The spec: "removes the mirrored edge; no-op (not an error) if
not connected." A pointer to no object is refused with `InvalidHandle`. -/
def disconnect (heap : Heap) (self port : PortHandle) : Except BackendError Heap :=
  match deref heap self, deref heap port with
  | some _, some _ => .ok (remove_connection (remove_connection heap self port) port self)
  | _, _ => .error .InvalidHandle

end DummyPort

/-- Both directions of the edge between the objects at `a` and `b` are present
in `heap`: `A.is_connected (B)` and `B.is_connected (A)` are both true. -/
def BothConnected (heap : Heap) (a b : PortHandle) : Prop :=
  ∃ pa pb, deref heap a = some pa ∧ deref heap b = some pb ∧
    pa.is_connected_to b = true ∧ pb.is_connected_to a = true

/-- Both directions of the edge between the objects at `a` and `b` are absent
in `heap`: `A.is_connected (B)` and `B.is_connected (A)` are both false. -/
def BothDisconnected (heap : Heap) (a b : PortHandle) : Prop :=
  ∃ pa pb, deref heap a = some pa ∧ deref heap b = some pb ∧
    pa.is_connected_to b = false ∧ pb.is_connected_to a = false

/-! ## Sorting a MIDI buffer -/

/-- Neither `a < b` nor `b < a`. -/
def DummyMidiEvent.incomparable (a b : DummyMidiEvent) : Bool :=
  !a.operator_lt b && !b.operator_lt a

/-- A function `sort` on MIDI buffers is a stable sort by `operator<`: its
result is a rearrangement of the buffer, no element of the result is less than
an earlier one, and the elements that are incomparable to any given event
appear in the order they had in the buffer. -/
def IsStableSort (sort : DummyMidiBuffer → DummyMidiBuffer) : Prop :=
  ∀ buf : DummyMidiBuffer,
    (sort buf).Perm buf ∧
    (sort buf).Pairwise (fun a b => b.operator_lt a = false) ∧
    ∀ x : DummyMidiEvent,
      (sort buf).filter (fun y => x.incomparable y) = buf.filter (fun y => x.incomparable y)

/-- Insertion of `x` in front of the first element that is not less than it. -/
def ordered_insert (x : DummyMidiEvent) : DummyMidiBuffer → DummyMidiBuffer
  | [] => [x]
  | y :: ys => if y.operator_lt x then y :: ordered_insert x ys else x :: y :: ys

/-- Insertion sort by `operator<`, a stable sort. -/
def insertion_sort : DummyMidiBuffer → DummyMidiBuffer
  | [] => []
  | x :: xs => ordered_insert x (insertion_sort xs)

/-! ## Example states -/

/-- A port with the given name, flags and type, no latency and no connection. -/
def example_port (name : String) (flags : PortFlags) (type : DataType) : DummyPort :=
  ⟨name, flags, ⟨0, 0⟩, ⟨0, 0⟩, [], type⟩

/-- Example flag values, one bit per flag. -/
def example_bits : PortFlagBits := ⟨1, 2, 4, 16⟩

/-- Three audio ports, at the addresses 10, 20 and 30, with distinct names:
a physical capture port (an output), a physical playback port (an input) and
a track input. -/
def example_heap : Heap := fun h =>
  if h = 10 then some (example_port "system:capture_1" 22 DataType.AUDIO)
  else if h = 20 then some (example_port "system:playback_1" 21 DataType.AUDIO)
  else if h = 30 then some (example_port "ardour:in" 1 DataType.AUDIO)
  else none

/-- Three ports at the addresses 10, 20 and 30; the last two have the same
name. -/
def example_heap_dup : Heap := fun h =>
  if h = 10 then some (example_port "system:capture_1" 22 DataType.AUDIO)
  else if h = 20 then some (example_port "ardour:in" 1 DataType.AUDIO)
  else if h = 30 then some (example_port "ardour:in" 1 DataType.MIDI)
  else none

/-- The registry of the three ports, in registration order. -/
def example_backend : DummyAudioBackend := ⟨[10, 20, 30]⟩

/-! ## Theorems -/

/-- C5: after `set_latency_range (r, for_playback)`, the call
`latency_range (for_playback)` returns exactly `r`. -/
theorem latency_range_set_latency_range (p : DummyPort) (r : LatencyRange)
    (for_playback : Bool) :
    (p.set_latency_range r for_playback).latency_range for_playback = r := by
  cases for_playback <;> simp [DummyPort.set_latency_range, DummyPort.latency_range]

/-- C6: `set_latency_range (r, for_playback)` leaves the latency range of the
other direction, `latency_range (!for_playback)`, as it was before the call. -/
theorem latency_range_other_direction (p : DummyPort) (r : LatencyRange)
    (for_playback : Bool) :
    (p.set_latency_range r for_playback).latency_range (!for_playback)
      = p.latency_range (!for_playback) := by
  cases for_playback <;> simp [DummyPort.set_latency_range, DummyPort.latency_range]

/-! ### MIDI event ordering -/

theorem operator_lt_iff (a b : DummyMidiEvent) :
    a.operator_lt b = true ↔ a._timestamp < b._timestamp := by
  simp [DummyMidiEvent.operator_lt, DummyMidiEvent.timestamp]

theorem operator_lt_eq_false_iff (a b : DummyMidiEvent) :
    a.operator_lt b = false ↔ b._timestamp ≤ a._timestamp := by
  simp [DummyMidiEvent.operator_lt, DummyMidiEvent.timestamp]

theorem incomparable_iff (a b : DummyMidiEvent) :
    a.incomparable b = true ↔ a._timestamp = b._timestamp := by
  simp only [DummyMidiEvent.incomparable, Bool.and_eq_true, Bool.not_eq_true',
    operator_lt_eq_false_iff]
  constructor
  · intro h
    exact Nat.le_antisymm h.2 h.1
  · intro h
    exact ⟨Nat.le_of_eq h.symm, Nat.le_of_eq h⟩

/-- C7: the ordering of MIDI events is by timestamp only. `a < b` holds exactly
when `a.timestamp () < b.timestamp ()`; replacing the events by events with the
same timestamps and any other payload and size does not change the result; and
two events with equal timestamps and different payloads are ordered in neither
direction. -/
theorem operator_lt_timestamp_only (a b : DummyMidiEvent) :
    (a.operator_lt b = true ↔ a.timestamp < b.timestamp) ∧
    (∀ (size_a size_b : Nat) (data_a data_b : List Nat),
      DummyMidiEvent.operator_lt ⟨size_a, a.timestamp, data_a⟩ ⟨size_b, b.timestamp, data_b⟩
        = a.operator_lt b) ∧
    (a.timestamp = b.timestamp → a.const_data ≠ b.const_data →
      a.operator_lt b = false ∧ b.operator_lt a = false) := by
  refine ⟨?_, ?_, ?_⟩
  · simp [DummyMidiEvent.operator_lt]
  · intro _ _ _ _
    simp [DummyMidiEvent.operator_lt, DummyMidiEvent.timestamp]
  · intro h _
    simp [DummyMidiEvent.operator_lt, h]

/-- The witness of C7: a note-on and a note-off event, both at sample 10. -/
theorem operator_lt_timestamp_only_witness :
    (DummyMidiEvent.mk 3 10 [144, 60, 100]).timestamp
        = (DummyMidiEvent.mk 3 10 [128, 60, 0]).timestamp ∧
    (DummyMidiEvent.mk 3 10 [144, 60, 100]).const_data
        ≠ (DummyMidiEvent.mk 3 10 [128, 60, 0]).const_data ∧
    (DummyMidiEvent.mk 3 10 [144, 60, 100]).operator_lt (DummyMidiEvent.mk 3 10 [128, 60, 0])
        = false ∧
    (DummyMidiEvent.mk 3 10 [128, 60, 0]).operator_lt (DummyMidiEvent.mk 3 10 [144, 60, 100])
        = false :=
  ⟨by decide, by decide,
    (operator_lt_timestamp_only (DummyMidiEvent.mk 3 10 [144, 60, 100])
      (DummyMidiEvent.mk 3 10 [128, 60, 0])).2.2 (by decide) (by decide)⟩

/-! ### Port flags -/

/-- `DummyPort::set_name` never fails: it returns 0 and the port has the new
name. -/
theorem set_name_returns_zero (p : DummyPort) (n : String) :
    (p.set_name n).1 = 0 ∧ (p.set_name n).2.name = n := ⟨rfl, rfl⟩

theorem run_flags (p : DummyPort) (op : PortOp) : (PortOp.run p op)._flags = p._flags := by
  cases op with
  | set_name name => rfl
  | set_latency_range r for_playback =>
    cases for_playback <;> rfl

theorem runAll_flags (ops : List PortOp) (p : DummyPort) :
    (PortOp.runAll p ops)._flags = p._flags := by
  induction ops generalizing p with
  | nil => rfl
  | cons op ops ih =>
    have h := ih (PortOp.run p op)
    simp only [PortOp.runAll, List.foldl_cons] at h ⊢
    rw [h, run_flags]

/-- C8: a port's flags are immutable after creation. After any sequence of
calls of `set_name` and `set_latency_range`, `flags ()` returns the value it
had before, and so do `is_input`, `is_output`, `is_physical` and
`is_terminal`. -/
theorem flags_immutable (bits : PortFlagBits) (p : DummyPort) (ops : List PortOp) :
    (PortOp.runAll p ops).flags = p.flags ∧
    (PortOp.runAll p ops).is_input bits = p.is_input bits ∧
    (PortOp.runAll p ops).is_output bits = p.is_output bits ∧
    (PortOp.runAll p ops).is_physical bits = p.is_physical bits ∧
    (PortOp.runAll p ops).is_terminal bits = p.is_terminal bits := by
  have h := runAll_flags ops p
  simp [DummyPort.flags, DummyPort.is_input, DummyPort.is_output, DummyPort.is_physical,
    DummyPort.is_terminal, h]

/-! ### Handle validity -/

theorem std_find_le (l : List PortHandle) (v : PortHandle) : std_find l v ≤ l.length := by
  induction l with
  | nil => simp [std_find]
  | cons x xs ih =>
    simp only [std_find, List.length_cons]
    split <;> omega

theorem std_find_ne_length_iff (l : List PortHandle) (v : PortHandle) :
    std_find l v ≠ l.length ↔ v ∈ l := by
  induction l with
  | nil => simp [std_find]
  | cons x xs ih =>
    simp only [std_find, List.length_cons, List.mem_cons]
    by_cases hx : x = v
    · simp [hx]
    · have hx' : ¬ v = x := fun h => hx h.symm
      simp only [hx, if_false, hx', false_or]
      rw [← ih]
      omega

theorem valid_port_true_iff_mem (b : DummyAudioBackend) (h : PortHandle) :
    b.valid_port h = true ↔ h ∈ b._ports := by
  simp only [DummyAudioBackend.valid_port, bne_iff_ne]
  exact std_find_ne_length_iff _ _

/-- C2: `valid_port (h)` returns true if and only if `h` is an element of
`_ports`. In particular it is false for every handle when `_ports` is empty,
and false for a handle that has been removed from the list: when `h` stood at
one position of the list, between `before` and `after`, it is valid, and once
that element is erased it is not. -/
theorem valid_port_iff (b : DummyAudioBackend) (h : PortHandle) :
    (b.valid_port h = true ↔ h ∈ b._ports) ∧
    (b._ports = [] → b.valid_port h = false) ∧
    (∀ before after : List PortHandle, h ∉ before → h ∉ after →
      b._ports = before ++ h :: after →
      b.valid_port h = true ∧
      DummyAudioBackend.valid_port ⟨before ++ after⟩ h = false) := by
  refine ⟨valid_port_true_iff_mem b h, ?_, ?_⟩
  · intro hnil
    have := valid_port_true_iff_mem b h
    rw [hnil] at this
    simpa using this
  · intro before after hb ha hp
    constructor
    · rw [valid_port_true_iff_mem, hp]
      simp
    · have := valid_port_true_iff_mem ⟨before ++ after⟩ h
      cases hv : DummyAudioBackend.valid_port ⟨before ++ after⟩ h with
      | false => rfl
      | true =>
        have hm := this.mp hv
        simp only [List.mem_append] at hm
        exact absurd hm (by tauto)

/-- The witness of C2: the handle 20 is erased from the registry [10, 20, 30]. -/
theorem valid_port_iff_witness :
    (20 : PortHandle) ∉ [(10 : PortHandle)] ∧ (20 : PortHandle) ∉ [(30 : PortHandle)] ∧
    DummyAudioBackend.valid_port ⟨[10, 20, 30]⟩ 20 = true ∧
    DummyAudioBackend.valid_port ⟨[10] ++ [30]⟩ 20 = false ∧
    DummyAudioBackend.valid_port ⟨[]⟩ 20 = false :=
  ⟨by decide, by decide,
    ((valid_port_iff ⟨[10, 20, 30]⟩ 20).2.2 [10] [30] (by decide) (by decide) rfl).1,
    ((valid_port_iff ⟨[10, 20, 30]⟩ 20).2.2 [10] [30] (by decide) (by decide) rfl).2,
    (valid_port_iff ⟨[]⟩ 20).2.1 rfl⟩

/-! ### Name lookup -/

theorem deref_ne_null {heap : Heap} {h : PortHandle} {p : DummyPort}
    (hp : deref heap h = some p) : h ≠ NULL := by
  intro hn
  simp [deref, hn] at hp

/-- On a list of pointers to objects the loop of `find_port` ends, either at
the end of the list, no element being named `n`, or at the first element named
`n`. -/
theorem find_port_loop_spec (heap : Heap) (n : String) (l : List PortHandle)
    (hl : ∀ h ∈ l, (deref heap h).isSome = true) :
    (DummyAudioBackend.find_port_loop heap n l = some NULL ∧
      ∀ h ∈ l, ∀ q, deref heap h = some q → q.name ≠ n) ∨
    (∃ r before after p, DummyAudioBackend.find_port_loop heap n l = some r ∧ r ≠ NULL ∧
      l = before ++ r :: after ∧ deref heap r = some p ∧ p.name = n ∧
      ∀ h ∈ before, ∀ q, deref heap h = some q → q.name ≠ n) := by
  induction l with
  | nil =>
    left
    simp [DummyAudioBackend.find_port_loop]
  | cons it rest ih =>
    have hit := hl it (List.mem_cons_self _ _)
    obtain ⟨p, hp⟩ := Option.isSome_iff_exists.mp hit
    have hrest : ∀ h ∈ rest, (deref heap h).isSome = true :=
      fun h hh => hl h (List.mem_cons_of_mem _ hh)
    by_cases hn : p.name = n
    · right
      refine ⟨it, [], rest, p, ?_, deref_ne_null hp, rfl, hp, hn, ?_⟩
      · simp [DummyAudioBackend.find_port_loop, hp, hn]
      · intro h hh
        simp at hh
    · have hstep : DummyAudioBackend.find_port_loop heap n (it :: rest)
          = DummyAudioBackend.find_port_loop heap n rest := by
        simp [DummyAudioBackend.find_port_loop, hp, hn]
      rcases ih hrest with ⟨hnull, hnone⟩ | ⟨r, before, after, q, hr, hrn, hsplit, hq, hqn, hbefore⟩
      · left
        refine ⟨hstep.trans hnull, ?_⟩
        intro h hh q hq
        rcases List.mem_cons.mp hh with rfl | hh
        · rw [hp] at hq
          cases hq
          exact hn
        · exact hnone h hh q hq
      · right
        refine ⟨r, it :: before, after, q, hstep.trans hr, hrn, ?_, hq, hqn, ?_⟩
        · simp [hsplit]
        · intro h hh q' hq'
          rcases List.mem_cons.mp hh with rfl | hh
          · rw [hp] at hq'
            cases hq'
            exact hn
          · exact hbefore h hh q' hq'

/-- C9: in a registry whose pointers all point to port objects (names may
repeat), `find_port (n)` returns; the result is null if and only if no
registered port is named `n`; a non-null result is a valid port, it is named
`n`, and it is the first port in registration order with that name: no port
before it in `_ports` is named `n`. -/
theorem find_port_first_match (heap : Heap) (b : DummyAudioBackend) (n : String)
    (hwf : b.WellFormed heap) :
    ∃ r, b.find_port heap n = some r ∧
      (r = NULL ↔ ¬ b.HasPortNamed heap n) ∧
      (r ≠ NULL →
        b.valid_port r = true ∧
        (∃ p, deref heap r = some p ∧ p.name = n) ∧
        ∃ before after, b._ports = before ++ r :: after ∧
          ∀ h ∈ before, ∀ q, deref heap h = some q → q.name ≠ n) := by
  rcases find_port_loop_spec heap n b._ports hwf with
    ⟨hnull, hnone⟩ | ⟨r, before, after, p, hr, hrn, hsplit, hp, hpn, hbefore⟩
  · refine ⟨NULL, hnull, ?_, fun h => absurd rfl h⟩
    constructor
    · rintro - ⟨h, hh, q, hq, hqn⟩
      exact hnone h hh q hq hqn
    · intro _
      rfl
  · refine ⟨r, hr, ?_, ?_⟩
    · constructor
      · intro h
        exact absurd h hrn
      · intro h
        exact absurd ⟨r, by simp [hsplit], p, hp, hpn⟩ h
    · intro _
      refine ⟨?_, ⟨p, hp, hpn⟩, before, after, hsplit, hbefore⟩
      rw [valid_port_true_iff_mem, hsplit]
      simp

theorem find_port_loop_own_name (heap : Heap) (l : List PortHandle)
    (hl : ∀ h ∈ l, (deref heap h).isSome = true)
    (hd : l.Pairwise (fun a b => (deref heap a).map DummyPort.name
      ≠ (deref heap b).map DummyPort.name))
    (p : PortHandle) (hp : p ∈ l) (port : DummyPort) (hport : deref heap p = some port) :
    DummyAudioBackend.find_port_loop heap port.name l = some p := by
  induction l with
  | nil => simp at hp
  | cons it rest ih =>
    obtain ⟨q, hq⟩ := Option.isSome_iff_exists.mp (hl it (List.mem_cons_self _ _))
    rw [List.pairwise_cons] at hd
    by_cases hn : q.name = port.name
    · have hpit : p = it := by
        rcases List.mem_cons.mp hp with h | h
        · exact h
        · exfalso
          apply hd.1 p h
          rw [hq, hport]
          simp [hn]
      simp [DummyAudioBackend.find_port_loop, hq, hn, hpit]
    · have hprest : p ∈ rest := by
        rcases List.mem_cons.mp hp with h | h
        · exfalso
          rw [h, hq] at hport
          cases hport
          exact hn rfl
        · exact h
      have := ih (fun h hh => hl h (List.mem_cons_of_mem _ hh)) hd.2 hprest
      simpa [DummyAudioBackend.find_port_loop, hq, hn] using this

/-- C3: in a registry whose ports have pairwise distinct names, looking a
registered port up by its own name returns that same port:
`find_port (p->name ()) == p`. -/
theorem find_port_name_inverse (heap : Heap) (b : DummyAudioBackend)
    (hwf : b.WellFormed heap) (hd : b.DistinctNames heap)
    (p : PortHandle) (hp : p ∈ b._ports) :
    ∃ port, deref heap p = some port ∧ b.find_port heap port.name = some p := by
  obtain ⟨port, hport⟩ := Option.isSome_iff_exists.mp (hwf p hp)
  exact ⟨port, hport, find_port_loop_own_name heap b._ports hwf hd p hp port hport⟩

/-- C4: renaming a registered port to the name of another registered port fails
with `DuplicateName`. -/
theorem set_port_name_duplicate (heap : Heap) (b : DummyAudioBackend)
    (hwf : b.WellFormed heap) (port other : PortHandle)
    (hp : port ∈ b._ports) (ho : other ∈ b._ports) (_hne : other ≠ port)
    (q : DummyPort) (hq : deref heap other = some q) :
    b.set_port_name heap port q.name = some (.error .DuplicateName) := by
  have hv : b.valid_port port = true := (valid_port_true_iff_mem b port).mpr hp
  rcases find_port_loop_spec heap q.name b._ports hwf with
    ⟨-, hnone⟩ | ⟨r, -, -, -, hr, hrn, -⟩
  · exact absurd rfl (hnone other ho q hq)
  · have hr' : b.find_port heap q.name = some r := hr
    simp [DummyAudioBackend.set_port_name, hv, hr', hrn]

theorem example_wf : example_backend.WellFormed example_heap := by
  intro h hh
  simp only [example_backend, List.mem_cons, List.mem_singleton, List.not_mem_nil,
    or_false] at hh
  rcases hh with rfl | rfl | rfl <;> decide

theorem example_dup_wf : example_backend.WellFormed example_heap_dup := by
  intro h hh
  simp only [example_backend, List.mem_cons, List.mem_singleton, List.not_mem_nil,
    or_false] at hh
  rcases hh with rfl | rfl | rfl <;> decide

theorem example_distinct : example_backend.DistinctNames example_heap := by
  unfold DummyAudioBackend.DistinctNames
  decide

/-- The witness of C9: with two ports named "ardour:in", at 20 and at 30, the
lookup is defined on the example registry. -/
theorem find_port_first_match_witness :
    example_backend.WellFormed example_heap_dup ∧
    ∃ r, example_backend.find_port example_heap_dup "ardour:in" = some r ∧
      (r = NULL ↔ ¬ example_backend.HasPortNamed example_heap_dup "ardour:in") ∧
      (r ≠ NULL →
        example_backend.valid_port r = true ∧
        (∃ p, deref example_heap_dup r = some p ∧ p.name = "ardour:in") ∧
        ∃ before after, example_backend._ports = before ++ r :: after ∧
          ∀ h ∈ before, ∀ q, deref example_heap_dup h = some q → q.name ≠ "ardour:in") :=
  ⟨example_dup_wf,
    find_port_first_match example_heap_dup example_backend "ardour:in" example_dup_wf⟩

/-- The witness of C3: the port at 30 of the example registry. -/
theorem find_port_name_inverse_witness :
    example_backend.WellFormed example_heap ∧ example_backend.DistinctNames example_heap ∧
    (30 : PortHandle) ∈ example_backend._ports ∧
    ∃ port, deref example_heap 30 = some port ∧
      example_backend.find_port example_heap port.name = some 30 :=
  ⟨example_wf, example_distinct, by decide,
    find_port_name_inverse example_heap example_backend example_wf example_distinct 30
      (by decide)⟩

/-- The witness of C4: the port at 30 is renamed to the name of the port at 10. -/
theorem set_port_name_duplicate_witness :
    example_backend.WellFormed example_heap ∧
    (30 : PortHandle) ∈ example_backend._ports ∧ (10 : PortHandle) ∈ example_backend._ports ∧
    (10 : PortHandle) ≠ 30 ∧
    deref example_heap 10 = some (example_port "system:capture_1" 22 DataType.AUDIO) ∧
    example_backend.set_port_name example_heap 30
      (example_port "system:capture_1" 22 DataType.AUDIO).name = some (.error .DuplicateName) :=
  ⟨example_wf, by decide, by decide, by decide, by decide,
    set_port_name_duplicate example_heap example_backend example_wf 30 10
      (by decide) (by decide) (by decide) (example_port "system:capture_1" 22 DataType.AUDIO)
      (by decide)⟩

/-! ### The connection graph -/

theorem deref_store (heap : Heap) (s : PortHandle) (v : DummyPort) (hs : s ≠ NULL)
    (x : PortHandle) :
    deref (store heap s v) x = if x = s then some v else deref heap x := by
  by_cases hx : x = s
  · subst hx
    simp [deref, store, hs]
  · simp [deref, store, hx, Function.update_noteq hx]

/-- Putting `port` into the set of the object at `self` keeps every object in
place, keeps every edge, and adds the edge at `self`. -/
theorem connect_half (heap : Heap) (self port x : PortHandle) (ax : DummyPort)
    (hx : deref heap x = some ax) :
    ∃ ax', deref (DummyPort.insert_connection heap self port) x = some ax' ∧
      (∀ c ∈ ax._connections, c ∈ ax'._connections) ∧
      (x = self → port ∈ ax'._connections) := by
  unfold DummyPort.insert_connection
  cases hself : deref heap self with
  | none =>
    refine ⟨ax, hx, fun c hc => hc, ?_⟩
    intro h
    rw [h, hself] at hx
    cases hx
  | some a =>
    by_cases hmem : port ∈ a._connections
    · simp only [hmem, if_true]
      refine ⟨ax, hx, fun c hc => hc, ?_⟩
      intro h
      rw [h, hself] at hx
      cases hx
      exact hmem
    · simp only [hmem, if_false]
      rw [deref_store _ _ _ (deref_ne_null hself)]
      by_cases hxs : x = self
      · rw [hxs, hself] at hx
        cases hx
        rw [if_pos hxs]
        refine ⟨_, rfl, ?_, ?_⟩
        · intro c hc
          simp [hc]
        · intro _
          simp
      · refine ⟨ax, by simp [hxs, hx], fun c hc => hc, fun h => absurd h hxs⟩

/-- Taking `port` out of the set of the object at `self` keeps every object in
place, adds no edge, and removes the edge at `self`. -/
theorem disconnect_half (heap : Heap) (self port x : PortHandle) (ax : DummyPort)
    (hx : deref heap x = some ax) :
    ∃ ax', deref (DummyPort.remove_connection heap self port) x = some ax' ∧
      (∀ c ∈ ax'._connections, c ∈ ax._connections) ∧
      (x = self → port ∉ ax'._connections) := by
  unfold DummyPort.remove_connection
  cases hself : deref heap self with
  | none =>
    refine ⟨ax, hx, fun c hc => hc, ?_⟩
    intro h
    rw [h, hself] at hx
    cases hx
  | some a =>
    simp only
    rw [deref_store _ _ _ (deref_ne_null hself)]
    by_cases hxs : x = self
    · rw [hxs, hself] at hx
      cases hx
      rw [if_pos hxs]
      refine ⟨_, rfl, ?_, ?_⟩
      · intro c hc
        exact (List.mem_filter.mp hc).1
      · intro _ hc
        simpa using (List.mem_filter.mp hc).2
    · refine ⟨ax, by simp [hxs, hx], fun c hc => hc, fun h => absurd h hxs⟩

theorem connect_ok_inv (bits : PortFlagBits) (heap heap1 : Heap) (A B : PortHandle)
    (h : DummyPort.connect bits heap A B = .ok heap1) :
    ∃ a b, deref heap A = some a ∧ deref heap B = some b ∧
      heap1 = DummyPort.insert_connection (DummyPort.insert_connection heap A B) B A := by
  unfold DummyPort.connect at h
  cases ha : deref heap A with
  | none => simp [ha] at h
  | some a =>
    cases hb : deref heap B with
    | none => simp [ha, hb] at h
    | some b =>
      refine ⟨a, b, rfl, rfl, ?_⟩
      simp only [ha, hb] at h
      split at h
      · cases h
      · split at h
        · cases h
        · split at h
          · cases h
          · split at h
            · cases h
            · cases h
              rfl

/-- C1: after `connect (A, B)` succeeds, `A.is_connected (B)` and
`B.is_connected (A)` are both true; a following `disconnect (A, B)` returns,
and after it both are false. -/
theorem connect_then_disconnect (bits : PortFlagBits) (heap heap1 : Heap) (A B : PortHandle)
    (h : DummyPort.connect bits heap A B = .ok heap1) :
    BothConnected heap1 A B ∧
    ∃ heap2, DummyPort.disconnect heap1 A B = .ok heap2 ∧ BothDisconnected heap2 A B := by
  obtain ⟨a, b, ha, hb, rfl⟩ := connect_ok_inv bits heap _ A B h
  obtain ⟨a1, ha1, -, ha1B⟩ := connect_half heap A B A a ha
  obtain ⟨b1, hb1, -, -⟩ := connect_half heap A B B b hb
  obtain ⟨a2, ha2, ha12, -⟩ := connect_half _ B A A a1 ha1
  obtain ⟨b2, hb2, -, hb2A⟩ := connect_half _ B A B b1 hb1
  have hBa2 : B ∈ a2._connections := ha12 B (ha1B rfl)
  have hAb2 : A ∈ b2._connections := hb2A rfl
  refine ⟨⟨a2, b2, ha2, hb2, by simp [DummyPort.is_connected_to, hBa2],
    by simp [DummyPort.is_connected_to, hAb2]⟩, ?_⟩
  obtain ⟨a3, ha3, -, ha3B⟩ := disconnect_half _ A B A a2 ha2
  obtain ⟨b3, hb3, -, -⟩ := disconnect_half _ A B B b2 hb2
  obtain ⟨a4, ha4, ha43, -⟩ := disconnect_half _ B A A a3 ha3
  obtain ⟨b4, hb4, -, hb4A⟩ := disconnect_half _ B A B b3 hb3
  refine ⟨_, by simp [DummyPort.disconnect, ha2, hb2], a4, b4, ha4, hb4, ?_, ?_⟩
  · simp only [DummyPort.is_connected_to, decide_eq_false_iff_not]
    exact fun hc => ha3B rfl (ha43 B hc)
  · simp only [DummyPort.is_connected_to, decide_eq_false_iff_not]
    exact hb4A rfl

/-- The witness of C1: the capture port at 10 is connected to the track input
at 30. -/
theorem connect_then_disconnect_witness :
    DummyPort.connect example_bits example_heap 10 30
      = .ok (DummyPort.insert_connection (DummyPort.insert_connection example_heap 10 30) 30 10) ∧
    BothConnected (DummyPort.insert_connection (DummyPort.insert_connection example_heap 10 30) 30 10) 10 30 ∧
    ∃ heap2, DummyPort.disconnect
        (DummyPort.insert_connection (DummyPort.insert_connection example_heap 10 30) 30 10) 10 30 = .ok heap2 ∧
      BothDisconnected heap2 10 30 :=
  ⟨rfl, connect_then_disconnect example_bits example_heap _ 10 30 rfl⟩

/-! ### Strict weak ordering and stable sorting -/

theorem ordered_insert_perm (x : DummyMidiEvent) (l : DummyMidiBuffer) :
    (ordered_insert x l).Perm (x :: l) := by
  induction l with
  | nil => exact List.Perm.refl _
  | cons y ys ih =>
    unfold ordered_insert
    split
    · exact (List.Perm.cons y ih).trans (List.Perm.swap x y ys)
    · exact List.Perm.refl _

theorem insertion_sort_perm (l : DummyMidiBuffer) : (insertion_sort l).Perm l := by
  induction l with
  | nil => exact List.Perm.refl _
  | cons x xs ih =>
    unfold insertion_sort
    exact (ordered_insert_perm x _).trans (List.Perm.cons x ih)

theorem ordered_insert_sorted (x : DummyMidiEvent) (l : DummyMidiBuffer)
    (hl : l.Pairwise (fun a b => b.operator_lt a = false)) :
    (ordered_insert x l).Pairwise (fun a b => b.operator_lt a = false) := by
  induction l with
  | nil => simp [ordered_insert]
  | cons y ys ih =>
    rw [List.pairwise_cons] at hl
    unfold ordered_insert
    split
    · rename_i hyx
      rw [List.pairwise_cons]
      refine ⟨?_, ih hl.2⟩
      intro z hz
      rcases List.mem_cons.mp ((ordered_insert_perm x ys).mem_iff.mp hz) with rfl | hz
      · rw [operator_lt_iff] at hyx
        rw [operator_lt_eq_false_iff]
        exact Nat.le_of_lt hyx
      · exact hl.1 z hz
    · rename_i hyx
      have hxy : x._timestamp ≤ y._timestamp :=
        (operator_lt_eq_false_iff y x).mp (by simpa using hyx)
      rw [List.pairwise_cons]
      refine ⟨?_, List.pairwise_cons.mpr hl⟩
      intro z hz
      rw [operator_lt_eq_false_iff]
      rcases List.mem_cons.mp hz with rfl | hz
      · exact hxy
      · exact Nat.le_trans hxy ((operator_lt_eq_false_iff z y).mp (hl.1 z hz))

theorem insertion_sort_sorted (l : DummyMidiBuffer) :
    (insertion_sort l).Pairwise (fun a b => b.operator_lt a = false) := by
  induction l with
  | nil => simp [insertion_sort]
  | cons x xs ih =>
    unfold insertion_sort
    exact ordered_insert_sorted x _ ih

theorem ordered_insert_filter (e x : DummyMidiEvent) (l : DummyMidiBuffer) :
    (ordered_insert x l).filter (fun y => e.incomparable y)
      = (x :: l).filter (fun y => e.incomparable y) := by
  induction l with
  | nil => rfl
  | cons y ys ih =>
    unfold ordered_insert
    split
    · rename_i hyx
      rw [operator_lt_iff] at hyx
      rw [List.filter_cons, ih]
      by_cases hy : e.incomparable y = true
      · have hx : e.incomparable x = false := by
          cases hx : e.incomparable x with
          | false => rfl
          | true =>
            rw [incomparable_iff] at hx hy
            rw [← hx, ← hy] at hyx
            exact absurd hyx (Nat.lt_irrefl _)
        simp [List.filter_cons, hy, hx]
      · simp [List.filter_cons, hy]
    · rfl

theorem insertion_sort_filter (e : DummyMidiEvent) (l : DummyMidiBuffer) :
    (insertion_sort l).filter (fun y => e.incomparable y)
      = l.filter (fun y => e.incomparable y) := by
  induction l with
  | nil => rfl
  | cons x xs ih =>
    unfold insertion_sort
    rw [ordered_insert_filter, List.filter_cons, List.filter_cons, ih]

theorem insertion_sort_stable : IsStableSort insertion_sort :=
  fun buf => ⟨insertion_sort_perm buf, insertion_sort_sorted buf,
    fun x => insertion_sort_filter x buf⟩

/-- C10: `operator<` is a strict weak ordering on events: it is irreflexive,
asymmetric and transitive, and incomparability is transitive. So a stable sort
of a MIDI buffer by this relation keeps equal-timestamp events in insertion
order: for every timestamp `t`, the events stamped `t` appear in the sorted
buffer in the order they had in the buffer. -/
theorem operator_lt_strict_weak_order :
    (∀ a : DummyMidiEvent, a.operator_lt a = false) ∧
    (∀ a b : DummyMidiEvent, a.operator_lt b = true → b.operator_lt a = false) ∧
    (∀ a b c : DummyMidiEvent, a.operator_lt b = true → b.operator_lt c = true →
      a.operator_lt c = true) ∧
    (∀ a b c : DummyMidiEvent, a.incomparable b = true → b.incomparable c = true →
      a.incomparable c = true) ∧
    (∀ sort : DummyMidiBuffer → DummyMidiBuffer, IsStableSort sort →
      ∀ (buf : DummyMidiBuffer) (t : pframes_t),
        (sort buf).filter (fun e => e.timestamp == t)
          = buf.filter (fun e => e.timestamp == t)) := by
  refine ⟨?_, ?_, ?_, ?_, ?_⟩
  · intro a
    rw [operator_lt_eq_false_iff]
  · intro a b hab
    rw [operator_lt_iff] at hab
    rw [operator_lt_eq_false_iff]
    exact Nat.le_of_lt hab
  · intro a b c hab hbc
    rw [operator_lt_iff] at hab hbc ⊢
    exact Nat.lt_trans hab hbc
  · intro a b c hab hbc
    rw [incomparable_iff] at hab hbc ⊢
    exact hab.trans hbc
  · intro sort hs buf t
    obtain ⟨hperm, -, hstable⟩ := hs buf
    by_cases hex : ∃ x ∈ buf, x._timestamp = t
    · obtain ⟨x, -, hxt⟩ := hex
      have hfun : (fun e : DummyMidiEvent => e.timestamp == t)
          = (fun y => x.incomparable y) := by
        funext y
        rw [Bool.eq_iff_iff, incomparable_iff, hxt]
        simp only [DummyMidiEvent.timestamp, beq_iff_eq]
        exact eq_comm
      rw [hfun]
      exact hstable x
    · have hnone : ∀ l : DummyMidiBuffer, (∀ x ∈ l, x._timestamp ≠ t) →
          l.filter (fun e => e.timestamp == t) = [] := by
        intro l hl
        rw [List.filter_eq_nil_iff]
        intro x hx
        simpa [DummyMidiEvent.timestamp] using hl x hx
      have hbuf : ∀ x ∈ buf, x._timestamp ≠ t := fun x hx hxt => hex ⟨x, hx, hxt⟩
      rw [hnone buf hbuf, hnone (sort buf) (fun x hx => hbuf x (hperm.mem_iff.mp hx))]

/-- The witness of C10: a buffer with a note-on and a note-off at sample 10,
after an event at sample 50 and before one at sample 30, sorted by insertion
sort. -/
theorem operator_lt_strict_weak_order_witness :
    DummyMidiEvent.operator_lt ⟨1, 10, [248]⟩ ⟨1, 30, [250]⟩ = true ∧
    DummyMidiEvent.operator_lt ⟨1, 30, [250]⟩ ⟨1, 50, [252]⟩ = true ∧
    DummyMidiEvent.operator_lt ⟨1, 30, [250]⟩ ⟨1, 10, [248]⟩ = false ∧
    DummyMidiEvent.operator_lt ⟨1, 10, [248]⟩ ⟨1, 50, [252]⟩ = true ∧
    DummyMidiEvent.incomparable ⟨3, 10, [144, 60, 100]⟩ ⟨3, 10, [128, 60, 0]⟩ = true ∧
    DummyMidiEvent.incomparable ⟨3, 10, [128, 60, 0]⟩ ⟨1, 10, [248]⟩ = true ∧
    DummyMidiEvent.incomparable ⟨3, 10, [144, 60, 100]⟩ ⟨1, 10, [248]⟩ = true ∧
    IsStableSort insertion_sort ∧
    (insertion_sort [⟨1, 50, [252]⟩, ⟨3, 10, [144, 60, 100]⟩, ⟨1, 30, [250]⟩,
        ⟨3, 10, [128, 60, 0]⟩]).filter (fun e => e.timestamp == 10)
      = (([⟨1, 50, [252]⟩, ⟨3, 10, [144, 60, 100]⟩, ⟨1, 30, [250]⟩,
        ⟨3, 10, [128, 60, 0]⟩] : DummyMidiBuffer).filter (fun e => e.timestamp == 10)) :=
  ⟨by decide, by decide,
    operator_lt_strict_weak_order.2.1 ⟨1, 10, [248]⟩ ⟨1, 30, [250]⟩ (by decide),
    operator_lt_strict_weak_order.2.2.1 ⟨1, 10, [248]⟩ ⟨1, 30, [250]⟩ ⟨1, 50, [252]⟩
      (by decide) (by decide),
    by decide, by decide,
    operator_lt_strict_weak_order.2.2.2.1 ⟨3, 10, [144, 60, 100]⟩ ⟨3, 10, [128, 60, 0]⟩
      ⟨1, 10, [248]⟩ (by decide) (by decide),
    insertion_sort_stable,
    operator_lt_strict_weak_order.2.2.2.2 insertion_sort insertion_sort_stable _ 10⟩

end ARDOUR
